import Mathlib

/-!
Verification of the session-manager core of `cloud-hypervisor-terminal.py`
(class `CloudHypervisorTerminal`). The registry `user_terminals` is a
Python dict `user_id -> {terminal_id -> terminal_data}`; we embed it as an
association list with dict semantics (unique keys, insertion order,
first-match lookup). OS effects (process poll, select readiness, os.read
payloads, RNG draws for the MAC address, the per-process string hash) are
explicit oracle inputs to each operation, so every definition is a pure,
executable translation of the corresponding Python method.
-/

namespace CloudHV

/-- A VM recipe: the caller-supplied configuration dict. `none` models an
absent key (`recipe.get(k)` missing). -/
structure Recipe where
  cpus : Option Nat := none
  memory : Option String := none
  use_firmware : Option Bool := none
  python_packages : Option (List String) := none
  startup_script : Option String := none
  name : Option String := none
deriving DecidableEq

/-- One stored terminal session: the dict built at the end of
`create_terminal` (lines 209-221), together with the observable state of
the owned process (`poll` is the current `process.poll()` answer, `none`
while running). -/
structure Terminal where
  poll : Option Int
  pid : Nat
  stdin_open : Bool
  stdout_open : Bool
  work_dir : String
  session_uuid : String
  created_at : Nat
  user_id : Option String
  screen_buffer : List String
  name : String
  recipe : Recipe
  startup_script : String
  pty_master : Option Nat
  pty_slave : Option Nat
deriving DecidableEq

/-- Per-user terminal dict: `terminal_id -> terminal_data`. -/
abbrev UserMap := List (String × Terminal)

/-- The registry `self.user_terminals : user_id -> UserMap`. The key is the
raw `user_id` argument, which may be Python `None`. -/
abbrev Registry := List (Option String × UserMap)

/-- The mutable fields of a `CloudHypervisorTerminal` instance that the
claims touch: the registry, `terminal_counter`, and the set of per-session
work directories currently existing on disk. -/
structure MState where
  registry : Registry
  counter : Nat
  dirs : List String
deriving DecidableEq

/-! ## Dict primitives (Python dict semantics on association lists) -/

/-- Dict lookup `um[tid]`, first match. -/
def umLookup : UserMap → String → Option Terminal
  | [], _ => none
  | (k, t) :: rest, tid => if k = tid then some t else umLookup rest tid

/-- Replace the value stored at `tid` (first occurrence); identity if the
key is absent. Models in-place mutation of the found dict entry. -/
def umUpdate : UserMap → String → Terminal → UserMap
  | [], _, _ => []
  | (k, v) :: rest, tid, t =>
    if k = tid then (k, t) :: rest else (k, v) :: umUpdate rest tid t

/-- Dict assignment `um[tid] = t`: update in place if present, else append. -/
def umSet : UserMap → String → Terminal → UserMap
  | [], tid, t => [(tid, t)]
  | (k, v) :: rest, tid, t =>
    if k = tid then (k, t) :: rest else (k, v) :: umSet rest tid t

/-- Dict deletion `del um[tid]`: drop the first entry with that key. -/
def umErase : UserMap → String → UserMap
  | [], _ => []
  | (k, v) :: rest, tid => if k = tid then rest else (k, v) :: umErase rest tid

/-- Dict lookup `registry[uid]`, first match. -/
def regLookup : Registry → Option String → Option UserMap
  | [], _ => none
  | (k, um) :: rest, uid => if k = uid then some um else regLookup rest uid

/-- Dict assignment `registry[uid] = um`: update in place if present, else append. -/
def regSet : Registry → Option String → UserMap → Registry
  | [], uid, um => [(uid, um)]
  | (k, v) :: rest, uid, um =>
    if k = uid then (k, um) :: rest else (k, v) :: regSet rest uid um

/-- The global search of `_find_terminal` with no user scope: iterate user
maps in insertion order, return the first holding `tid` (lines 356-359). -/
def regFindGlobal : Registry → String → Option Terminal
  | [], _ => none
  | (_, um) :: rest, tid =>
    match umLookup um tid with
    | some t => some t
    | none => regFindGlobal rest tid

/-- The global removal loop of `close_terminal` (lines 476-480): delete
`tid` from the first user map containing it, then stop. -/
def regEraseGlobal : Registry → String → Registry
  | [], _ => []
  | (u, um) :: rest, tid =>
    if (umLookup um tid).isSome then (u, umErase um tid) :: rest
    else (u, um) :: regEraseGlobal rest tid

/-- In-place mutation of the terminal found by the global search: update
`tid` inside the first user map containing it. -/
def regUpdateGlobal : Registry → String → Terminal → Registry
  | [], _, _ => []
  | (u, um) :: rest, tid, t =>
    if (umLookup um tid).isSome then (u, umUpdate um tid t) :: rest
    else (u, um) :: regUpdateGlobal rest tid t

/-- How many entries keyed `tid` a user map holds (0 or 1 for real dicts). -/
def umCount : UserMap → String → Nat
  | [], _ => 0
  | (k, _) :: rest, tid => (if k = tid then 1 else 0) + umCount rest tid

/-- Total number of entries keyed `tid` across the whole registry. The
manager's monotone counter keeps this at most 1 for every id it issues. -/
def regCount : Registry → String → Nat
  | [], _ => 0
  | (_, um) :: rest, tid => umCount um tid + regCount rest tid

/-- Python truthiness of the optional `user_id` argument: `None` and the
empty string are both falsy, so `if user_id:` takes the global branch for
either. -/
def uidTruthy : Option String → Bool
  | none => false
  | some s => s ≠ ""

/-- Method `_find_terminal` (lines 350-360): scoped dict lookup when `user_id` is
truthy, otherwise a global search across all users. -/
def find_terminal (reg : Registry) (tid : String) (uid : Option String) :
    Option Terminal :=
  if uidTruthy uid then
    match regLookup reg uid with
    | some um => umLookup um tid
    | none => none
  else regFindGlobal reg tid

/-- Mutation of the terminal object returned by `_find_terminal`: the
update lands wherever the lookup found it. -/
def updateFound (reg : Registry) (tid : String) (uid : Option String)
    (t : Terminal) : Registry :=
  if uidTruthy uid then
    match regLookup reg uid with
    | some um => regSet reg uid (umUpdate um tid t)
    | none => reg
  else regUpdateGlobal reg tid t

/-! ## VmConfigBuilder: `_prepare_vm_config`, `_generate_mac_address`,
`_build_cloud_hypervisor_command` -/

/-- Path join `os.path.join` for the relative literals used by the source. -/
def joinPath (a b : String) : String := a ++ "/" ++ b

/-- The VM configuration dict assembled by `_prepare_vm_config` and then
enriched with `session_uuid` by `create_terminal`. -/
structure VmConfig where
  cpus : Nat
  memory : String
  kernel : String
  cmdline : Option String
  disk : String
  console : String
  serial : String
  net : Bool
  session_uuid : String
deriving DecidableEq

/-- Method `_prepare_vm_config` (lines 263-287): resource defaults, boot-mode
selection, fixed disk image. `work_dir` and `session_uuid` are accepted but
unused, exactly as in the source. -/
def prepare_vm_config (base_dir : String) (recipe : Recipe)
    (_work_dir _session_uuid : String) : VmConfig :=
  { cpus := recipe.cpus.getD 2
    memory := recipe.memory.getD "512M"
    kernel :=
      if recipe.use_firmware.getD false then joinPath base_dir "bin/hypervisor-fw"
      else joinPath base_dir "bin/vmlinux-ch"
    cmdline :=
      if recipe.use_firmware.getD false then none
      else some "console=ttyS0 root=/dev/vda1 rw"
    disk := joinPath base_dir "bin/ubuntu-rootfs.img"
    console := "tty"
    serial := "tty"
    net := true
    session_uuid := "" }

/-- Format `"%02x" % n` of Python: lowercase hex, zero-padded to width 2. -/
def fmt02x (n : Nat) : String :=
  let s := (Nat.toDigits 16 n).asString
  if s.length < 2 then "0" ++ s else s

/-- Method `_generate_mac_address` (lines 340-348) with the three `randint` draws
made explicit: `02:00:00` followed by the drawn bytes. -/
def generate_mac_address (r1 r2 r3 : Nat) : String :=
  fmt02x 2 ++ ":" ++ fmt02x 0 ++ ":" ++ fmt02x 0 ++ ":" ++
    fmt02x r1 ++ ":" ++ fmt02x r2 ++ ":" ++ fmt02x r3

/-- The per-session guest IP (line 335): `172.20.0.{100 + hash(uuid) % 50}`
with `pyhash` the process's salted string hash (fixed within one run). -/
def vmIpOf (pyhash : String → Int) (uuid : String) : String :=
  "172.20.0." ++ toString ((100 : Int) + (pyhash uuid).emod 50)

/-- A successfully allocated pseudo-terminal pair with an accessible slave
path; `none` models any failure of the PTY block (fallback to tty mode). -/
structure PtyAlloc where
  master : Nat
  slave : Nat
  path : String
deriving DecidableEq

/-- The fixed part of the hypervisor argument vector: everything
`_build_cloud_hypervisor_command` emits before the `--net` pair. Used to
state that the vector depends on the RNG draws only through the MAC. -/
def cmdCore (base_dir : String) (config : VmConfig) (pty : Option PtyAlloc) :
    List String :=
  [joinPath base_dir "bin/cloud-hypervisor",
   "--cpus", "boot=" ++ Nat.repr config.cpus,
   "--memory", "size=" ++ config.memory,
   "--kernel", config.kernel,
   "--disk", "path=" ++ config.disk,
   "--console", "off",
   "--serial", (match pty with | some p => "pty=" ++ p.path | none => "tty")] ++
  (match config.cmdline with | some c => ["--cmdline", c] | none => [])

/-- The `--net` argument pair (lines 331-336), when networking is on. -/
def netSuffix (pyhash : String → Int) (config : VmConfig)
    (r1 r2 r3 : Nat) : List String :=
  if config.net then
    ["--net", "tap=ch-tap0,mac=" ++ generate_mac_address r1 r2 r3 ++
      ",ip=" ++ vmIpOf pyhash config.session_uuid ++ ",mask=255.255.255.0"]
  else []

/-- Method `_build_cloud_hypervisor_command` (lines 289-338): serial config from
the PTY allocation outcome, then the argument vector; returns the vector
and the PTY descriptors recorded into the config for the session. -/
def build_cloud_hypervisor_command (base_dir : String) (config : VmConfig)
    (pty : Option PtyAlloc) (r1 r2 r3 : Nat) (pyhash : String → Int) :
    List String × Option Nat × Option Nat :=
  (cmdCore base_dir config pty ++ netSuffix pyhash config r1 r2 r3,
   pty.map (fun p => p.master), pty.map (fun p => p.slave))

/-! ## Results of the public operations (the returned dicts) -/

/-- Result of `write_to_terminal`: `{"success": True}` or an error dict. -/
inductive WriteRes where
  | ok : WriteRes
  | err (msg : String) : WriteRes
deriving DecidableEq

/-- Result of `read_from_terminal`: `{"output": s, "success": True}` or an
error dict. -/
inductive ReadRes where
  | ok (output : String) : ReadRes
  | err (msg : String) : ReadRes
deriving DecidableEq

/-- Result of `close_terminal`. -/
inductive CloseRes where
  | ok : CloseRes
  | err (msg : String) : CloseRes
deriving DecidableEq

/-- Result of `resize_terminal`. -/
inductive ResizeRes where
  | ok : ResizeRes
  | err (msg : String) : ResizeRes
deriving DecidableEq

/-- Result of `create_terminal`: `{"terminal_id", "success", "name"}` or
`{"error", "success": False}`. -/
inductive CreateRes where
  | ok (terminal_id name : String) : CreateRes
  | err (msg : String) : CreateRes
deriving DecidableEq

/-- Result of `get_screen_content`. -/
inductive ScreenRes where
  | ok (content : String) : ScreenRes
  | err (msg : String) : ScreenRes
deriving DecidableEq

/-- The status dict assembled by `get_terminal_status` (lines 542-550). -/
structure TermStatus where
  id : String
  name : String
  created : Nat
  running : Bool
  pid : Nat
  recipe : Recipe
  work_dir : String
deriving DecidableEq

/-- Result of `get_terminal_status`. -/
inductive StatusRes where
  | ok (status : TermStatus) : StatusRes
  | err (msg : String) : StatusRes
deriving DecidableEq

/-- One row of the `list_terminals` answer (lines 501-506). -/
structure ListEntry where
  id : String
  name : String
  created : Nat
  status : String
deriving DecidableEq

/-! ## The screen buffer -/

/-- The buffer update applied by `read_from_terminal` after a successful
non-empty read (lines 406-409): append the chunk, then keep only the last
1000 entries (`buf[-1000:]`). -/
def pushChunk (buf : List String) (c : String) : List String :=
  if (buf ++ [c]).length > 1000 then
    (buf ++ [c]).drop ((buf ++ [c]).length - 1000)
  else buf ++ [c]

/-! ## Console I/O operations -/

/-- The OS-level outcome of one write attempt: `none` when `os.write` (or
the stdin write) succeeds, `some e` when it raises with message `e`. -/
structure WriteEnv where
  writeErr : Option String
deriving DecidableEq

/-- Method `write_to_terminal` (lines 362-384). The command text never influences
the control flow, only the bytes written. -/
def write_to_terminal (st : MState) (tid : String) (_command : String)
    (uid : Option String) (env : WriteEnv) : WriteRes :=
  match find_terminal st.registry tid uid with
  | none => WriteRes.err "Terminal not found"
  | some t =>
    if t.poll.isSome then WriteRes.err "VM process has stopped"
    else if t.pty_master.isSome then
      match env.writeErr with
      | none => WriteRes.ok
      | some e => WriteRes.err e
    else if t.stdin_open then
      match env.writeErr with
      | none => WriteRes.ok
      | some e => WriteRes.err e
    else WriteRes.err "Neither PTY nor process stdin available"

/-- The OS-level outcome of one read attempt: whether `select` reported the
descriptor ready, and what `os.read` produced if attempted (`none` models
an `OSError`, `some ""` an empty read, `some s` decoded data). -/
structure ReadEnv where
  selectReady : Bool
  readData : Option String
deriving DecidableEq

/-- Method `read_from_terminal` (lines 386-433): not-found and stopped-process
guards, then a non-blocking read from the PTY master (or the stdout
fallback); a non-empty chunk is pushed onto the screen buffer before being
returned; everything else is an empty success. -/
def read_from_terminal (st : MState) (tid : String) (uid : Option String)
    (env : ReadEnv) : ReadRes × MState :=
  match find_terminal st.registry tid uid with
  | none => (ReadRes.err "Terminal not found", st)
  | some t =>
    if t.poll.isSome then (ReadRes.err "VM process has stopped", st)
    else if t.pty_master.isSome then
      if env.selectReady then
        match env.readData with
        | some s =>
          if s ≠ "" then
            let t' := { t with screen_buffer := pushChunk t.screen_buffer s }
            (ReadRes.ok s, { st with registry := updateFound st.registry tid uid t' })
          else (ReadRes.ok "", st)
        | none => (ReadRes.ok "", st)
      else (ReadRes.ok "", st)
    else if t.stdout_open then
      if env.selectReady then
        match env.readData with
        | some s =>
          if s ≠ "" then
            let t' := { t with screen_buffer := pushChunk t.screen_buffer s }
            (ReadRes.ok s, { st with registry := updateFound st.registry tid uid t' })
          else (ReadRes.ok "", st)
        | none => (ReadRes.ok "", st)
      else (ReadRes.ok "", st)
    else (ReadRes.ok "", st)

/-! ## Lifecycle operations -/

/-- The filesystem outcome of `close_terminal`'s cleanup block: whether
control reached and completed `shutil.rmtree(work_dir)`. Any exception in
the block (killpg, descriptor close, rmtree itself) is caught and only
printed, so the flag is the sole observable effect. -/
structure CloseEnv where
  dirRemoved : Bool
deriving DecidableEq

/-- Method `close_terminal` (lines 435-482): not-found guard, best-effort cleanup
whose failures are swallowed, then unconditional removal from the registry
(scoped deletion when the user key is truthy and present, otherwise the
global first-match deletion loop). -/
def close_terminal (st : MState) (tid : String) (uid : Option String)
    (env : CloseEnv) : CloseRes × MState :=
  match find_terminal st.registry tid uid with
  | none => (CloseRes.err "Terminal not found", st)
  | some t =>
    let dirs' := if env.dirRemoved then st.dirs.filter (fun d => d ≠ t.work_dir)
                 else st.dirs
    let reg' :=
      if uidTruthy uid && (regLookup st.registry uid).isSome then
        match regLookup st.registry uid with
        | some um =>
          if (umLookup um tid).isSome then regSet st.registry uid (umErase um tid)
          else st.registry
        | none => st.registry
      else regEraseGlobal st.registry tid
    (CloseRes.ok, { st with registry := reg', dirs := dirs' })

/-- Method `resize_terminal` (lines 484-494): an acknowledged no-op on any
resolvable session. -/
def resize_terminal (st : MState) (tid : String) (_rows _cols : Nat)
    (uid : Option String) : ResizeRes :=
  match find_terminal st.registry tid uid with
  | none => ResizeRes.err "Terminal not found"
  | some _ => ResizeRes.ok

/-- One row of `list_terminals`: id, name, creation time, and a status
derived by probing the process. -/
def listEntryOf (tid : String) (t : Terminal) : ListEntry :=
  { id := tid, name := t.name, created := t.created_at,
    status := if t.poll.isNone then "running" else "stopped" }

/-- Method `list_terminals` (lines 496-521): scoped listing for a truthy user id
(empty when the user has no entry), otherwise all terminals of all users
in registry order. -/
def list_terminals (st : MState) (uid : Option String) : List ListEntry :=
  if uidTruthy uid then
    match regLookup st.registry uid with
    | some um => um.map (fun p => listEntryOf p.1 p.2)
    | none => []
  else (st.registry.map (fun p => p.2.map (fun q => listEntryOf q.1 q.2))).flatten

/-- Method `get_screen_content` (lines 523-533): concatenate the accumulated
buffer with `''.join`. -/
def get_screen_content (st : MState) (tid : String) (uid : Option String) :
    ScreenRes :=
  match find_terminal st.registry tid uid with
  | none => ScreenRes.err "Terminal not found"
  | some t => ScreenRes.ok (String.join t.screen_buffer)

/-- Method `get_terminal_status` (lines 535-553): the read-only status snapshot. -/
def get_terminal_status (st : MState) (tid : String) (uid : Option String) :
    StatusRes :=
  match find_terminal st.registry tid uid with
  | none => StatusRes.err "Terminal not found"
  | some t =>
    StatusRes.ok
      { id := tid, name := t.name, created := t.created_at,
        running := t.poll.isNone, pid := t.pid, recipe := t.recipe,
        work_dir := t.work_dir }

/-! ## `create_terminal` -/

/-- Python substring membership `sub in s` for the non-empty literal
markers the source scans for. -/
def hasSub (s sub : String) : Bool := (s.splitOn sub).length ≠ 1

/-- Outcome of the quick `subprocess.run(ch_cmd + ['--help'], timeout=2)`
probe (lines 140-159). -/
inductive TestOutcome where
  | timeoutExpired : TestOutcome
  | fileNotFound : TestOutcome
  | completed (returncode : Int) (stderrTxt : String) : TestOutcome
  | otherError (msg : String) : TestOutcome
deriving DecidableEq

/-- The command-probe block of `create_terminal`: a timeout is tolerated, a
missing binary raises, a nonzero exit whose stderr mentions an unexpected
argument raises a syntax error (the manually raised exception is re-raised
by the generic handler because its text contains the marker), and any other
error is swallowed. -/
def testPhase : TestOutcome → Except String Unit
  | TestOutcome.timeoutExpired => Except.ok ()
  | TestOutcome.fileNotFound => Except.error "Cloud Hypervisor binary not found"
  | TestOutcome.completed rc stderrTxt =>
    if rc ≠ 0 ∧ hasSub stderrTxt "unexpected argument" then
      Except.error ("Command syntax error: " ++ stderrTxt)
    else Except.ok ()
  | TestOutcome.otherError msg =>
    if hasSub msg "unexpected argument" then Except.error msg else Except.ok ()

/-- The boot-failure classifier (lines 178-201): drain both output streams
and scan the combined text for known markers. -/
def classifyBootFailure (stdoutTxt stderrTxt : String) : String :=
  let full := "STDOUT: " ++ stdoutTxt ++ "\nSTDERR: " ++ stderrTxt
  if hasSub full "Resource busy" then
    "Error booting VM: Network interface is busy. Try again in a few seconds."
  else if hasSub full "TapOpen" then
    "Error booting VM: TAP interface error. Network may be in use."
  else if hasSub full "unexpected argument" then
    "Error booting VM: Command line argument error. " ++ full
  else "Error booting VM: " ++ full

/-- Directory creation `os.makedirs(work_dir, exist_ok=True)` on the modelled directory set. -/
def addDir (dirs : List String) (d : String) : List String :=
  if d ∈ dirs then dirs else dirs ++ [d]

/-- All OS-level outcomes one `create_terminal` call can observe: the fresh
session UUID and timestamp, the child pid, the PTY allocation result, the
probe outcome, a possible spawn failure, the health-check poll after the
2-second wait, the drained boot output, and the three MAC RNG draws. -/
structure CreateEnv where
  uuid : String
  now : Nat
  pid : Nat
  pty : Option PtyAlloc
  testOutcome : TestOutcome
  launchErr : Option String
  pollAfterStart : Option Int
  bootStdout : String
  bootStderr : String
  r1 : Nat
  r2 : Nat
  r3 : Nat
deriving DecidableEq

/-- The body of `create_terminal`'s try block (lines 129-223): build the
config and command, probe the command, spawn, health-check; on success
produce the terminal dict to be stored. Any `Except.error` is the string
of the exception reaching the outer handler. -/
def createAttempt (base_dir : String) (pyhash : String → Int)
    (recipe : Option Recipe) (uid : Option String) (env : CreateEnv)
    (counter' : Nat) (work_dir : String) : Except String Terminal :=
  let cfg0 := prepare_vm_config base_dir (recipe.getD {}) work_dir env.uuid
  let cfg := { cfg0 with session_uuid := env.uuid }
  let built := build_cloud_hypervisor_command base_dir cfg env.pty
    env.r1 env.r2 env.r3 pyhash
  match testPhase env.testOutcome with
  | Except.error e => Except.error e
  | Except.ok _ =>
    match env.launchErr with
    | some e => Except.error e
    | none =>
      match env.pollAfterStart with
      | some _ => Except.error (classifyBootFailure env.bootStdout env.bootStderr)
      | none =>
        let dflt := "CloudHV " ++ Nat.repr counter'
        Except.ok
          { poll := none, pid := env.pid, stdin_open := true, stdout_open := true,
            work_dir := work_dir, session_uuid := env.uuid, created_at := env.now,
            user_id := uid, screen_buffer := [],
            name := (match recipe with
                     | some r => r.name.getD dflt
                     | none => dflt),
            recipe := recipe.getD {},
            startup_script := joinPath work_dir "startup.sh",
            pty_master := built.2.1, pty_slave := built.2.2 }

/-- Method `create_terminal` (lines 112-229): allocate `terminal_{counter}` and
bump the counter, create the work directory, run the try block; on failure
remove the work directory and leave the registry untouched, on success
store the session under the caller's user id. -/
def create_terminal (base_dir : String) (pyhash : String → Int) (st : MState)
    (recipe : Option Recipe) (uid : Option String) (env : CreateEnv) :
    CreateRes × MState :=
  let terminal_id := "terminal_" ++ Nat.repr st.counter
  let counter' := st.counter + 1
  let work_dir := joinPath base_dir ("vm-" ++ env.uuid)
  let dirs1 := addDir st.dirs work_dir
  match createAttempt base_dir pyhash recipe uid env counter' work_dir with
  | Except.error e =>
    (CreateRes.err e,
     { st with counter := counter', dirs := dirs1.filter (fun d => d ≠ work_dir) })
  | Except.ok term =>
    let um := (regLookup st.registry uid).getD []
    (CreateRes.ok terminal_id term.name,
     { registry := regSet st.registry uid (umSet um terminal_id term),
       counter := counter', dirs := dirs1 })

/-- A straight-line run of `create_terminal` calls, collecting the
results: the shape in which the id-uniqueness claim quantifies over "any
later create on the same manager". -/
def runCreates (base_dir : String) (pyhash : String → Int) :
    MState → List (Option Recipe × Option String × CreateEnv) → List CreateRes
  | _, [] => []
  | st, (r, u, e) :: rest =>
    let out := create_terminal base_dir pyhash st r u e
    out.1 :: runCreates base_dir pyhash out.2 rest

/-- A straight-line run of `read_from_terminal` calls, keeping only the
final state: the shape in which the buffer-bound claim quantifies over
"any sequence of reads". -/
def runReads : MState → List (String × Option String × ReadEnv) → MState
  | st, [] => st
  | st, (tid, uid, env) :: rest =>
    runReads (read_from_terminal st tid uid env).2 rest

end CloudHV

namespace CloudHV

/-! ## Sample data used by the concrete witnesses -/

/-- A running session as stored by `create_terminal`. -/
def runningTerm : Terminal :=
  { poll := none, pid := 7, stdin_open := true, stdout_open := true,
    work_dir := "/b/vm-u1", session_uuid := "u1", created_at := 3,
    user_id := some "alice", screen_buffer := ["boot\n"], name := "T1",
    recipe := {}, startup_script := "/b/vm-u1/startup.sh",
    pty_master := some 3, pty_slave := some 4 }

/-- The same session after its VM process exited with code 0. -/
def stoppedTerm : Terminal := { runningTerm with poll := some 0 }

/-- A manager holding one running session owned by `alice`. -/
def aliceState : MState :=
  { registry := [(some "alice", [("terminal_0", runningTerm)])],
    counter := 1, dirs := ["/b/vm-u1"] }

/-- A running session whose PTY allocation failed, so the console is the
stdout fallback. -/
def fallbackTerm : Terminal :=
  { runningTerm with pty_master := none, pty_slave := none }

/-- A manager holding one running stdout-fallback session owned by
`bob`. -/
def fallbackState : MState :=
  { registry := [(some "bob", [("terminal_1", fallbackTerm)])],
    counter := 2, dirs := ["/b/vm-u1"] }

/-- A manager holding one stopped (but not closed) session. -/
def stoppedState : MState :=
  { registry := [(some "alice", [("terminal_0", stoppedTerm)])],
    counter := 1, dirs := ["/b/vm-u1"] }

/-! ## Dictionary lemmas: lookup, erasure, and entry counts -/

/-- A user map with no entry for `tid` answers `none`. -/
theorem umLookup_none_of_count (um : UserMap) (tid : String)
    (h : umCount um tid = 0) : umLookup um tid = none := by
  induction um with
  | nil => rfl
  | cons hd tl ih =>
    obtain ⟨k, v⟩ := hd
    by_cases hk : k = tid
    · simp [umCount, hk] at h
    · simp [umCount, hk] at h
      simpa [umLookup, hk] using ih h

/-- A successful lookup needs at least one entry for the key. -/
theorem one_le_umCount_of_lookup (um : UserMap) (tid : String) (t : Terminal)
    (h : umLookup um tid = some t) : 1 ≤ umCount um tid := by
  induction um with
  | nil => simp [umLookup] at h
  | cons hd tl ih =>
    obtain ⟨k, v⟩ := hd
    by_cases hk : k = tid
    · simp [umCount, hk]
    · simp [umLookup, hk] at h
      simpa [umCount, hk] using ih h

/-- Deleting a present key removes exactly one entry for it. -/
theorem umCount_umErase (um : UserMap) (tid : String) (t : Terminal)
    (h : umLookup um tid = some t) :
    umCount (umErase um tid) tid + 1 = umCount um tid := by
  induction um with
  | nil => simp [umLookup] at h
  | cons hd tl ih =>
    obtain ⟨k, v⟩ := hd
    by_cases hk : k = tid
    · simp [umErase, umCount, hk]
      omega
    · simp [umLookup, hk] at h
      simp [umErase, umCount, hk]
      have := ih h
      omega

/-- The entries of any user map reachable by `regLookup` are counted in
the registry total. -/
theorem umCount_le_regCount (reg : Registry) (uid : Option String)
    (um : UserMap) (tid : String) (h : regLookup reg uid = some um) :
    umCount um tid ≤ regCount reg tid := by
  induction reg with
  | nil => simp [regLookup] at h
  | cons hd tl ih =>
    obtain ⟨k, v⟩ := hd
    by_cases hk : k = uid
    · simp [regLookup, hk] at h
      simp [regCount, h]
    · simp [regLookup, hk] at h
      simp [regCount]
      exact le_trans (ih h) (Nat.le_add_left _ _)

/-- Replacing the user map found at `uid` exchanges its contribution to
the registry total. -/
theorem regCount_regSet (reg : Registry) (uid : Option String)
    (um um' : UserMap) (tid : String) (h : regLookup reg uid = some um) :
    regCount (regSet reg uid um') tid + umCount um tid =
      regCount reg tid + umCount um' tid := by
  induction reg with
  | nil => simp [regLookup] at h
  | cons hd tl ih =>
    obtain ⟨k, v⟩ := hd
    by_cases hk : k = uid
    · simp [regLookup, hk] at h
      simp [regSet, hk, regCount, h]
      omega
    · simp [regLookup, hk] at h
      simp [regSet, hk, regCount]
      have := ih h
      omega

/-- The global deletion loop removes exactly one entry for a globally
findable id. -/
theorem regCount_regEraseGlobal (reg : Registry) (tid : String) (t : Terminal)
    (h : regFindGlobal reg tid = some t) :
    regCount (regEraseGlobal reg tid) tid + 1 = regCount reg tid := by
  induction reg with
  | nil => simp [regFindGlobal] at h
  | cons hd tl ih =>
    obtain ⟨u, um⟩ := hd
    cases hl : umLookup um tid with
    | some t' =>
      have h1 := umCount_umErase um tid t' hl
      simp [regEraseGlobal, hl, regCount]
      omega
    | none =>
      simp [regFindGlobal, hl] at h
      simp [regEraseGlobal, hl, regCount]
      have := ih h
      omega

/-- A registry holding no entry for `tid` cannot find it globally. -/
theorem regFindGlobal_none_of_count (reg : Registry) (tid : String)
    (h : regCount reg tid = 0) : regFindGlobal reg tid = none := by
  induction reg with
  | nil => rfl
  | cons hd tl ih =>
    obtain ⟨u, um⟩ := hd
    simp [regCount] at h
    simp [regFindGlobal, umLookup_none_of_count um tid h.1]
    exact ih h.2

/-- A registry holding no entry for `tid` cannot find it under any scope:
the id is `NotFound` for every caller. -/
theorem find_terminal_none_of_count (reg : Registry) (tid : String)
    (h : regCount reg tid = 0) (uid : Option String) :
    find_terminal reg tid uid = none := by
  unfold find_terminal
  by_cases hu : uidTruthy uid = true
  · simp [hu]
    cases hr : regLookup reg uid with
    | none => simp
    | some um =>
      have hle := umCount_le_regCount reg uid um tid hr
      simp [umLookup_none_of_count um tid (by omega)]
  · simp [hu, regFindGlobal_none_of_count reg tid h]

/-! ## Not-found behaviour of each operation -/

/-- An unresolvable id makes `read_from_terminal` return `NotFound`. -/
theorem read_notFound (s : MState) (tid : String) (uid : Option String)
    (env : ReadEnv) (h : find_terminal s.registry tid uid = none) :
    read_from_terminal s tid uid env = (ReadRes.err "Terminal not found", s) := by
  simp [read_from_terminal, h]

/-- An unresolvable id makes `write_to_terminal` return `NotFound`. -/
theorem write_notFound (s : MState) (tid cmd : String) (uid : Option String)
    (env : WriteEnv) (h : find_terminal s.registry tid uid = none) :
    write_to_terminal s tid cmd uid env = WriteRes.err "Terminal not found" := by
  simp [write_to_terminal, h]

/-- An unresolvable id makes `resize_terminal` return `NotFound`. -/
theorem resize_notFound (s : MState) (tid : String) (rows cols : Nat)
    (uid : Option String) (h : find_terminal s.registry tid uid = none) :
    resize_terminal s tid rows cols uid = ResizeRes.err "Terminal not found" := by
  simp [resize_terminal, h]

/-- An unresolvable id makes `get_terminal_status` return `NotFound`. -/
theorem status_notFound (s : MState) (tid : String) (uid : Option String)
    (h : find_terminal s.registry tid uid = none) :
    get_terminal_status s tid uid = StatusRes.err "Terminal not found" := by
  simp [get_terminal_status, h]

/-- An unresolvable id makes `close_terminal` return `NotFound` and leave
the state untouched. -/
theorem close_notFound (s : MState) (tid : String) (uid : Option String)
    (env : CloseEnv) (h : find_terminal s.registry tid uid = none) :
    close_terminal s tid uid env = (CloseRes.err "Terminal not found", s) := by
  simp [close_terminal, h]

/-! ## C1: close always succeeds and unconditionally unregisters -/

/-- C1: for every session id resolvable in the registry (which holds at
most one entry for it, the invariant the monotone id counter maintains),
`close_terminal` returns success and removes the entry whatever the
cleanup outcome was (the `CloseEnv` oracle, including a failed
work-directory deletion, is universally quantified); afterwards every
`read`, `write`, `resize`, `get_terminal_status`, or `close` on the same
id, under any scope, returns the `Terminal not found` error. -/
theorem close_terminal_unregisters (st : MState) (tid : String)
    (uid : Option String) (t : Terminal) (env : CloseEnv)
    (hfind : find_terminal st.registry tid uid = some t)
    (hcount : regCount st.registry tid ≤ 1) :
    (close_terminal st tid uid env).1 = CloseRes.ok ∧
    regCount (close_terminal st tid uid env).2.registry tid = 0 ∧
    (∀ uid',
      find_terminal (close_terminal st tid uid env).2.registry tid uid' =
        none) ∧
    (∀ uid' env',
      read_from_terminal (close_terminal st tid uid env).2 tid uid' env' =
        (ReadRes.err "Terminal not found", (close_terminal st tid uid env).2)) ∧
    (∀ uid' cmd env',
      write_to_terminal (close_terminal st tid uid env).2 tid cmd uid' env' =
        WriteRes.err "Terminal not found") ∧
    (∀ uid' rows cols,
      resize_terminal (close_terminal st tid uid env).2 tid rows cols uid' =
        ResizeRes.err "Terminal not found") ∧
    (∀ uid',
      get_terminal_status (close_terminal st tid uid env).2 tid uid' =
        StatusRes.err "Terminal not found") ∧
    (∀ uid' env',
      close_terminal (close_terminal st tid uid env).2 tid uid' env' =
        (CloseRes.err "Terminal not found", (close_terminal st tid uid env).2)) := by
  have hok : (close_terminal st tid uid env).1 = CloseRes.ok := by
    simp [close_terminal, hfind]
  have hcount0 : regCount (close_terminal st tid uid env).2.registry tid = 0 := by
    by_cases hb : (uidTruthy uid && (regLookup st.registry uid).isSome) = true
    · rcases Bool.and_eq_true _ _ |>.mp hb with ⟨ht, hs⟩
      cases hr : regLookup st.registry uid with
      | none => rw [hr] at hs; simp at hs
      | some um =>
        have hum : umLookup um tid = some t := by
          unfold find_terminal at hfind
          rw [if_pos ht, hr] at hfind
          exact hfind
        have hreg : (close_terminal st tid uid env).2.registry =
            regSet st.registry uid (umErase um tid) := by
          simp [close_terminal, hfind, hr, ht, hum]
        rw [hreg]
        have h1 := one_le_umCount_of_lookup um tid t hum
        have h2 := umCount_le_regCount st.registry uid um tid hr
        have h3 := umCount_umErase um tid t hum
        have h4 := regCount_regSet st.registry uid um (umErase um tid) tid hr
        omega
    · have hreg : (close_terminal st tid uid env).2.registry =
          regEraseGlobal st.registry tid := by
        simp [close_terminal, hfind, hb]
      have ht : uidTruthy uid = false := by
        by_contra hcon
        have ht' : uidTruthy uid = true := by
          cases h' : uidTruthy uid
          · exact absurd h' hcon
          · rfl
        unfold find_terminal at hfind
        rw [if_pos ht'] at hfind
        cases hr : regLookup st.registry uid with
        | none => rw [hr] at hfind; simp at hfind
        | some um =>
          apply hb
          simp [ht', hr]
      have hg : regFindGlobal st.registry tid = some t := by
        unfold find_terminal at hfind
        rw [if_neg (by simp [ht])] at hfind
        exact hfind
      rw [hreg]
      have h5 := regCount_regEraseGlobal st.registry tid t hg
      omega
  have hnone := find_terminal_none_of_count
    (close_terminal st tid uid env).2.registry tid hcount0
  refine ⟨hok, hcount0, hnone, ?_, ?_, ?_, ?_, ?_⟩
  · intro uid' env'
    exact read_notFound _ _ _ _ (hnone uid')
  · intro uid' cmd env'
    exact write_notFound _ _ _ _ _ (hnone uid')
  · intro uid' rows cols
    exact resize_notFound _ _ _ _ _ (hnone uid')
  · intro uid'
    exact status_notFound _ _ _ (hnone uid')
  · intro uid' env'
    exact close_notFound _ _ _ _ (hnone uid')

/-- Witness for C1: closing the single running session with a cleanup
oracle reporting a failed work-directory deletion still succeeds and makes
a subsequent status query on the same id report `Terminal not found`. -/
theorem close_terminal_unregisters_witness :
    (close_terminal aliceState "terminal_0" none { dirRemoved := false }).1 =
      CloseRes.ok ∧
    get_terminal_status
        (close_terminal aliceState "terminal_0" none { dirRemoved := false }).2
        "terminal_0" (some "alice") =
      StatusRes.err "Terminal not found" :=
  ⟨(close_terminal_unregisters aliceState "terminal_0" none runningTerm
      { dirRemoved := false } (by decide) (by decide)).1,
   (close_terminal_unregisters aliceState "terminal_0" none runningTerm
      { dirRemoved := false } (by decide) (by decide)).2.2.2.2.2.2.1
     (some "alice")⟩

/-! ## Lookup after in-place update -/

/-- Updating a present key is visible to the next lookup. -/
theorem umLookup_umUpdate (um : UserMap) (tid : String) (t t' : Terminal)
    (h : umLookup um tid = some t) :
    umLookup (umUpdate um tid t') tid = some t' := by
  induction um with
  | nil => simp [umLookup] at h
  | cons hd tl ih =>
    obtain ⟨k, v⟩ := hd
    by_cases hk : k = tid
    · simp [umUpdate, umLookup, hk]
    · simp [umLookup, hk] at h
      simpa [umUpdate, umLookup, hk] using ih h

/-- A dict assignment is visible to the next lookup of the same key. -/
theorem regLookup_regSet (reg : Registry) (uid : Option String)
    (um : UserMap) : regLookup (regSet reg uid um) uid = some um := by
  induction reg with
  | nil => simp [regSet, regLookup]
  | cons hd tl ih =>
    obtain ⟨k, v⟩ := hd
    by_cases hk : k = uid
    · simp [regSet, regLookup, hk]
    · simpa [regSet, regLookup, hk] using ih

/-- Updating the globally found terminal is visible to the next global
search. -/
theorem regFindGlobal_regUpdateGlobal (reg : Registry) (tid : String)
    (t t' : Terminal) (h : regFindGlobal reg tid = some t) :
    regFindGlobal (regUpdateGlobal reg tid t') tid = some t' := by
  induction reg with
  | nil => simp [regFindGlobal] at h
  | cons hd tl ih =>
    obtain ⟨u, um⟩ := hd
    cases hl : umLookup um tid with
    | some v =>
      simp [regFindGlobal, hl] at h
      simp [regUpdateGlobal, hl, regFindGlobal,
        umLookup_umUpdate um tid v t' hl]
    | none =>
      simp [regFindGlobal, hl] at h
      simpa [regUpdateGlobal, hl, regFindGlobal] using ih h

/-- The in-place mutation of a found terminal is visible to the next
lookup under the same scope. -/
theorem find_terminal_updateFound (reg : Registry) (tid : String)
    (uid : Option String) (t t' : Terminal)
    (h : find_terminal reg tid uid = some t) :
    find_terminal (updateFound reg tid uid t') tid uid = some t' := by
  by_cases hu : uidTruthy uid = true
  · have h' : (match regLookup reg uid with
        | some um => umLookup um tid
        | none => none) = some t := by
      simpa [find_terminal, hu] using h
    cases hr : regLookup reg uid with
    | none => rw [hr] at h'; simp at h'
    | some um =>
      rw [hr] at h'
      simp [find_terminal, updateFound, hu, hr, regLookup_regSet]
      exact umLookup_umUpdate um tid t t' h'
  · have h' : regFindGlobal reg tid = some t := by
      simpa [find_terminal, hu] using h
    simp [find_terminal, updateFound, hu]
    exact regFindGlobal_regUpdateGlobal reg tid t t' h'

/-! ## C7: reads are buffered before being returned, and
`get_screen_content` replays the buffer in order -/

/-- The terminal as mutated by a successful non-empty read: the chunk is
pushed onto the screen buffer. -/
def withChunk (t : Terminal) (s : String) : Terminal :=
  { t with screen_buffer := pushChunk t.screen_buffer s }

/-- C7: whenever a read on a resolvable, running session obtains a
non-empty chunk — through either console channel, the PTY master or the
stdout fallback (the disjunctive channel hypothesis covers exactly the
cases in which a successful non-empty read can occur) — the chunk is
pushed onto the session's screen buffer in the returned state (append at
the back, capacity-capped) and the same chunk is the returned output; a
later `get_screen_content` on that state yields the in-order
concatenation of the updated buffer, and in general `get_screen_content`
on any resolvable session is exactly `String.join` of its buffer. -/
theorem read_buffers_chunk_before_return (st : MState) (tid : String)
    (uid : Option String) (env : ReadEnv) (t : Terminal) (s : String)
    (hfind : find_terminal st.registry tid uid = some t)
    (hrun : t.poll = none)
    (hchan : t.pty_master.isSome = true ∨ t.stdout_open = true)
    (hsel : env.selectReady = true) (hdata : env.readData = some s)
    (hne : s ≠ "") :
    read_from_terminal st tid uid env =
      (ReadRes.ok s,
       { st with registry := updateFound st.registry tid uid (withChunk t s) }) ∧
    find_terminal (read_from_terminal st tid uid env).2.registry tid uid =
      some (withChunk t s) ∧
    get_screen_content (read_from_terminal st tid uid env).2 tid uid =
      ScreenRes.ok (String.join (pushChunk t.screen_buffer s)) ∧
    (∀ (st' : MState) (tid' : String) (uid' : Option String) (t' : Terminal),
      find_terminal st'.registry tid' uid' = some t' →
      get_screen_content st' tid' uid' =
        ScreenRes.ok (String.join t'.screen_buffer)) := by
  have heq : read_from_terminal st tid uid env =
      (ReadRes.ok s,
       { st with registry := updateFound st.registry tid uid (withChunk t s) }) := by
    by_cases hpty : t.pty_master.isSome = true
    · simp [read_from_terminal, withChunk, hfind, hrun, hpty, hsel, hdata, hne]
    · have hstd : t.stdout_open = true := by
        rcases hchan with h | h
        · exact absurd h hpty
        · exact h
      simp [read_from_terminal, withChunk, hfind, hrun, hpty, hstd, hsel,
        hdata, hne]
  have hfind' : find_terminal (read_from_terminal st tid uid env).2.registry
      tid uid = some (withChunk t s) := by
    rw [heq]
    exact find_terminal_updateFound st.registry tid uid t _ hfind
  refine ⟨heq, hfind', ?_, ?_⟩
  · simp [get_screen_content, hfind', withChunk]
  · intro st' tid' uid' t' h
    simp [get_screen_content, h]

/-- Witness for C7 on both console channels: reading `hello` on the
concrete PTY session and `fb` on the concrete stdout-fallback session
each return the chunk, and a later `get_screen_content` replays the
buffered output followed by the new chunk. -/
theorem read_buffers_chunk_before_return_witness :
    ((read_from_terminal aliceState "terminal_0" (some "alice")
        { selectReady := true, readData := some "hello" }).1 =
      ReadRes.ok "hello" ∧
    get_screen_content
        (read_from_terminal aliceState "terminal_0" (some "alice")
          { selectReady := true, readData := some "hello" }).2
        "terminal_0" (some "alice") =
      ScreenRes.ok (String.join ["boot\n", "hello"])) ∧
    ((read_from_terminal fallbackState "terminal_1" (some "bob")
        { selectReady := true, readData := some "fb" }).1 =
      ReadRes.ok "fb" ∧
    get_screen_content
        (read_from_terminal fallbackState "terminal_1" (some "bob")
          { selectReady := true, readData := some "fb" }).2
        "terminal_1" (some "bob") =
      ScreenRes.ok (String.join ["boot\n", "fb"])) := by
  have h1 := read_buffers_chunk_before_return aliceState "terminal_0"
    (some "alice") { selectReady := true, readData := some "hello" }
    runningTerm "hello" (by decide) (by decide) (Or.inl (by decide))
    (by decide) (by decide) (by decide)
  have h2 := read_buffers_chunk_before_return fallbackState "terminal_1"
    (some "bob") { selectReady := true, readData := some "fb" }
    fallbackTerm "fb" (by decide) (by decide) (Or.inr (by decide))
    (by decide) (by decide) (by decide)
  refine ⟨⟨by rw [h1.1], ?_⟩, ⟨by rw [h2.1], ?_⟩⟩
  · rw [h1.2.2.1]
    rfl
  · rw [h2.2.2.1]
    rfl

/-! ## C2: the screen buffer is bounded at 1000 and FIFO-truncated -/

/-- Lemma: `pushChunk` appends at the back and drops from the front: the result
is always a suffix of the appended sequence, obtained by dropping a
prefix. -/
theorem pushChunk_eq_drop (buf : List String) (c : String) :
    pushChunk buf c = (buf ++ [c]).drop ((buf.length + 1) - 1000) := by
  unfold pushChunk
  by_cases h : (buf ++ [c]).length > 1000
  · simp only [if_pos h]
    simp at h ⊢
  · simp only [if_neg h]
    simp at h
    have : buf.length + 1 - 1000 = 0 := by omega
    simp [this]

/-- One push keeps a within-capacity buffer within capacity. -/
theorem pushChunk_length_le (buf : List String) (c : String)
    (h : buf.length ≤ 1000) : (pushChunk buf c).length ≤ 1000 := by
  unfold pushChunk
  by_cases hb : (buf ++ [c]).length > 1000
  · simp only [if_pos hb]
    simp only [List.length_drop, List.length_append, List.length_cons,
      List.length_nil] at hb ⊢
    omega
  · simp only [if_neg hb]
    simp only [List.length_append, List.length_cons, List.length_nil] at hb ⊢
    omega

/-- Folding the buffer update over any chunk sequence from the empty
buffer retains exactly the most recent 1000 chunks, in their original
relative order (for short sequences, everything). -/
theorem foldl_pushChunk (cs : List String) :
    List.foldl pushChunk [] cs = cs.drop (cs.length - 1000) := by
  induction cs using List.reverseRecOn with
  | nil => rfl
  | append_singleton ds c ih =>
    rw [List.foldl_append, List.foldl_cons, List.foldl_nil, ih]
    by_cases hn : ds.length < 1000
    · have h0 : ds.length - 1000 = 0 := by omega
      have h1 : (ds ++ [c]).length - 1000 = 0 := by
        simp only [List.length_append, List.length_cons, List.length_nil]
        omega
      rw [h0, h1, List.drop_zero, List.drop_zero]
      unfold pushChunk
      have hnot : ¬ (ds ++ [c]).length > 1000 := by
        simp only [List.length_append, List.length_cons, List.length_nil]
        omega
      simp only [if_neg hnot]
    · have hn' : 1000 ≤ ds.length := by omega
      have hlen : (ds.drop (ds.length - 1000)).length = 1000 := by
        simp only [List.length_drop]
        omega
      unfold pushChunk
      have hgt : (ds.drop (ds.length - 1000) ++ [c]).length > 1000 := by
        simp only [List.length_append, List.length_cons, List.length_nil, hlen]
        omega
      rw [if_pos hgt]
      have h2 : (ds.drop (ds.length - 1000) ++ [c]).length - 1000 = 1 := by
        simp only [List.length_append, List.length_cons, List.length_nil, hlen]
      rw [h2]
      rw [List.drop_append_of_le_length (by rw [hlen]; omega :
        1 ≤ (ds.drop (ds.length - 1000)).length)]
      rw [List.drop_drop]
      rw [List.drop_append_of_le_length
        (by simp only [List.length_append, List.length_cons, List.length_nil]
            omega :
          (ds ++ [c]).length - 1000 ≤ ds.length)]
      have h3 : ds.length - 1000 + 1 = (ds ++ [c]).length - 1000 := by
        simp only [List.length_append, List.length_cons, List.length_nil]
        omega
      rw [h3]

/-- The registry-wide capacity invariant: every stored session's screen
buffer holds at most 1000 chunks. -/
def BufBound (st : MState) : Prop :=
  ∀ p ∈ st.registry, ∀ q ∈ p.2, q.2.screen_buffer.length ≤ 1000

/-- Entries after an in-place value update: old entries, or the updated
binding. -/
theorem mem_umUpdate (um : UserMap) (tid : String) (t : Terminal)
    (q : String × Terminal) (h : q ∈ umUpdate um tid t) :
    q ∈ um ∨ q = (tid, t) := by
  induction um with
  | nil => simp [umUpdate] at h
  | cons hd tl ih =>
    obtain ⟨k, v⟩ := hd
    by_cases hk : k = tid
    · simp [umUpdate, hk] at h
      rcases h with h | h
      · right; rw [h]
      · left; simp [h]
    · simp [umUpdate, hk] at h
      rcases h with h | h
      · left; simp [h]
      · rcases ih h with h' | h'
        · left; simp [h']
        · right; exact h'

/-- Entries after a dict assignment: old entries, or the assigned pair. -/
theorem mem_regSet (reg : Registry) (uid : Option String) (um : UserMap)
    (p : Option String × UserMap) (h : p ∈ regSet reg uid um) :
    p ∈ reg ∨ p = (uid, um) := by
  induction reg with
  | nil => simp [regSet] at h; right; exact h
  | cons hd tl ih =>
    obtain ⟨k, v⟩ := hd
    by_cases hk : k = uid
    · simp [regSet, hk] at h
      rcases h with h | h
      · right; rw [h]
      · left; simp [h]
    · simp [regSet, hk] at h
      rcases h with h | h
      · left; simp [h]
      · rcases ih h with h' | h'
        · left; simp [h']
        · right; exact h'

/-- Entries after the global in-place update: old entries, or an old user
map with the one binding updated. -/
theorem mem_regUpdateGlobal (reg : Registry) (tid : String) (t : Terminal)
    (p : Option String × UserMap) (h : p ∈ regUpdateGlobal reg tid t) :
    p ∈ reg ∨ ∃ u um, (u, um) ∈ reg ∧ p = (u, umUpdate um tid t) := by
  induction reg with
  | nil => simp [regUpdateGlobal] at h
  | cons hd tl ih =>
    obtain ⟨u0, um0⟩ := hd
    by_cases hl : (umLookup um0 tid).isSome = true
    · simp [regUpdateGlobal, hl] at h
      rcases h with h | h
      · right; exact ⟨u0, um0, by simp, h⟩
      · left; simp [h]
    · simp [regUpdateGlobal, hl] at h
      rcases h with h | h
      · left; simp [h]
      · rcases ih h with h' | ⟨u, um, hmem, hp⟩
        · left; simp [h']
        · right; exact ⟨u, um, by simp [hmem], hp⟩

/-- The user map found by a registry lookup is one of its entries. -/
theorem regLookup_mem (reg : Registry) (uid : Option String) (um : UserMap)
    (h : regLookup reg uid = some um) : (uid, um) ∈ reg := by
  induction reg with
  | nil => simp [regLookup] at h
  | cons hd tl ih =>
    obtain ⟨k, v⟩ := hd
    by_cases hk : k = uid
    · simp [regLookup, hk] at h
      simp [hk, h]
    · simp [regLookup, hk] at h
      simp [ih h]

/-- Entries after mutating the found terminal: old entries, or an old user
map with the one binding updated. -/
theorem mem_updateFound (reg : Registry) (tid : String) (uid : Option String)
    (t : Terminal) (p : Option String × UserMap)
    (h : p ∈ updateFound reg tid uid t) :
    p ∈ reg ∨ ∃ u um, (u, um) ∈ reg ∧ p = (u, umUpdate um tid t) := by
  unfold updateFound at h
  by_cases hu : uidTruthy uid = true
  · rw [if_pos hu] at h
    cases hr : regLookup reg uid with
    | none => rw [hr] at h; left; exact h
    | some um =>
      rw [hr] at h
      rcases mem_regSet reg uid (umUpdate um tid t) p h with h' | h'
      · left; exact h'
      · right; exact ⟨uid, um, regLookup_mem reg uid um hr, h'⟩
  · rw [if_neg hu] at h
    exact mem_regUpdateGlobal reg tid t p h

/-- A found terminal is one of the registry's stored values. -/
theorem find_terminal_mem (reg : Registry) (tid : String)
    (uid : Option String) (t : Terminal)
    (h : find_terminal reg tid uid = some t) :
    ∃ p ∈ reg, (tid, t) ∈ p.2 := by
  have humem : ∀ (um : UserMap), umLookup um tid = some t → (tid, t) ∈ um := by
    intro um
    induction um with
    | nil => intro h'; simp [umLookup] at h'
    | cons hd tl ih =>
      obtain ⟨k, v⟩ := hd
      intro h'
      by_cases hk : k = tid
      · simp [umLookup, hk] at h'
        simp [hk, h']
      · simp [umLookup, hk] at h'
        simp [ih h']
  unfold find_terminal at h
  by_cases hu : uidTruthy uid = true
  · rw [if_pos hu] at h
    cases hr : regLookup reg uid with
    | none => rw [hr] at h; simp at h
    | some um =>
      rw [hr] at h
      exact ⟨(uid, um), regLookup_mem reg uid um hr, humem um h⟩
  · rw [if_neg hu] at h
    clear hu
    induction reg with
    | nil => simp [regFindGlobal] at h
    | cons hd tl ih =>
      obtain ⟨u0, um0⟩ := hd
      cases hl : umLookup um0 tid with
      | some v =>
        simp [regFindGlobal, hl] at h
        subst h
        exact ⟨(u0, um0), by simp, humem um0 hl⟩
      | none =>
        simp [regFindGlobal, hl] at h
        rcases ih h with ⟨p, hp, hq⟩
        exact ⟨p, by simp [hp], hq⟩

/-- The state a read returns: either untouched, or the found terminal
updated in place with one pushed chunk. -/
theorem read_state_cases (st : MState) (tid : String) (uid : Option String)
    (env : ReadEnv) :
    (read_from_terminal st tid uid env).2 = st ∨
    ∃ t s, find_terminal st.registry tid uid = some t ∧
      (read_from_terminal st tid uid env).2 =
        { st with registry := updateFound st.registry tid uid (withChunk t s) } := by
  cases hfind : find_terminal st.registry tid uid with
  | none => left; simp [read_from_terminal, hfind]
  | some t =>
    by_cases h1 : t.poll.isSome = true
    · left; simp [read_from_terminal, hfind, h1]
    · by_cases hsel : env.selectReady = true
      · cases hdata : env.readData with
        | none =>
          left
          by_cases h2 : t.pty_master.isSome = true
          · simp [read_from_terminal, hfind, h1, h2, hsel, hdata]
          · by_cases h3 : t.stdout_open = true
            · simp [read_from_terminal, hfind, h1, h2, h3, hsel, hdata]
            · simp [read_from_terminal, hfind, h1, h2, h3, hsel]
        | some s =>
          by_cases hne : s = ""
          · left
            by_cases h2 : t.pty_master.isSome = true
            · simp [read_from_terminal, hfind, h1, h2, hsel, hdata, hne]
            · by_cases h3 : t.stdout_open = true
              · simp [read_from_terminal, hfind, h1, h2, h3, hsel, hdata, hne]
              · simp [read_from_terminal, hfind, h1, h2, h3, hsel]
          · by_cases h2 : t.pty_master.isSome = true
            · right
              refine ⟨t, s, rfl, ?_⟩
              simp [read_from_terminal, withChunk, hfind, h1, h2, hsel, hdata, hne]
            · by_cases h3 : t.stdout_open = true
              · right
                refine ⟨t, s, rfl, ?_⟩
                simp [read_from_terminal, withChunk, hfind, h1, h2, h3, hsel,
                  hdata, hne]
              · left
                simp [read_from_terminal, hfind, h1, h2, h3, hsel]
      · left
        by_cases h2 : t.pty_master.isSome = true
        · simp [read_from_terminal, hfind, h1, h2, hsel]
        · by_cases h3 : t.stdout_open = true
          · simp [read_from_terminal, hfind, h1, h2, h3, hsel]
          · simp [read_from_terminal, hfind, h1, h2, h3, hsel]

/-- One read preserves the registry-wide buffer capacity invariant. -/
theorem bufBound_read (st : MState) (tid : String) (uid : Option String)
    (env : ReadEnv) (h : BufBound st) :
    BufBound (read_from_terminal st tid uid env).2 := by
  rcases read_state_cases st tid uid env with heq | ⟨t, s, hfind, heq⟩
  · rw [heq]; exact h
  · rw [heq]
    intro p hp q hq
    have htb : t.screen_buffer.length ≤ 1000 := by
      rcases find_terminal_mem st.registry tid uid t hfind with ⟨p', hp', hq'⟩
      exact h p' hp' (tid, t) hq'
    rcases mem_updateFound st.registry tid uid _ p hp with h' | ⟨u, um, hmem, hpe⟩
    · exact h p h' q hq
    · rw [hpe] at hq
      rcases mem_umUpdate um tid _ q hq with h'' | h''
      · exact h (u, um) hmem q h''
      · rw [h'']
        exact pushChunk_length_le t.screen_buffer s htb

/-- C2: the screen buffer never exceeds 1000 chunks across any sequence of
reads (the registry-wide invariant is preserved by `runReads`); chunks are
only appended at the back and dropped from the front (every push is a
drop of a prefix of the appended sequence); and appending more than 1000
chunks from an empty buffer leaves exactly the most recent 1000 in their
original relative order. -/
theorem screen_buffer_capacity (cs : List String) (h : 1000 < cs.length) :
    List.foldl pushChunk [] cs = cs.drop (cs.length - 1000) ∧
    (List.foldl pushChunk [] cs).length = 1000 ∧
    (∀ buf c, ∃ k, pushChunk buf c = (buf ++ [c]).drop k) ∧
    (∀ (st : MState) (steps : List (String × Option String × ReadEnv)),
      BufBound st → BufBound (runReads st steps)) := by
  refine ⟨foldl_pushChunk cs, ?_, ?_, ?_⟩
  · rw [foldl_pushChunk]
    simp only [List.length_drop]
    omega
  · intro buf c
    exact ⟨(buf.length + 1) - 1000, pushChunk_eq_drop buf c⟩
  · intro st steps hb
    induction steps generalizing st with
    | nil => exact hb
    | cons hd tl ih =>
      obtain ⟨tid, uid, env⟩ := hd
      exact ih _ (bufBound_read st tid uid env hb)

/-- Witness for C2 at a concrete run of 1001 distinct chunks: exactly the
most recent 1000 remain. -/
theorem screen_buffer_capacity_witness :
    List.foldl pushChunk [] ((List.range 1001).map (fun n => Nat.repr n)) =
      ((List.range 1001).map (fun n => Nat.repr n)).drop
        (((List.range 1001).map (fun n => Nat.repr n)).length - 1000) ∧
    (List.foldl pushChunk []
      ((List.range 1001).map (fun n => Nat.repr n))).length = 1000 :=
  ⟨(screen_buffer_capacity _ (by simp)).1,
   (screen_buffer_capacity _ (by simp)).2.1⟩

/-! ## C3: a failed create leaves no partial state -/

/-- Creating and then removing the work directory cancels out on the
modelled directory set. -/
theorem addDir_filter (dirs : List String) (d : String) :
    (addDir dirs d).filter (fun x => x ≠ d) = dirs.filter (fun x => x ≠ d) := by
  unfold addDir
  by_cases h : d ∈ dirs
  · simp [h]
  · simp [h, List.filter_append]

/-- A removed directory is gone. -/
theorem not_mem_filter_ne (l : List String) (d : String) :
    d ∉ l.filter (fun x => x ≠ d) := by
  simp

/-- C3: whenever `create_terminal` fails (the probe, the spawn, or the
health check raised after the work directory was created), the result is
the error dict, the registry is left exactly as it was, the session's
work directory is removed (absent from the resulting directory set), and
only the id counter advanced. -/
theorem create_failure_removes_workdir (bd : String) (ph : String → Int)
    (st : MState) (recipe : Option Recipe) (uid : Option String)
    (env : CreateEnv) (e : String)
    (h : (create_terminal bd ph st recipe uid env).1 = CreateRes.err e) :
    (create_terminal bd ph st recipe uid env).2.registry = st.registry ∧
    joinPath bd ("vm-" ++ env.uuid) ∉
      (create_terminal bd ph st recipe uid env).2.dirs ∧
    (create_terminal bd ph st recipe uid env).2.dirs =
      st.dirs.filter (fun d => d ≠ joinPath bd ("vm-" ++ env.uuid)) ∧
    (create_terminal bd ph st recipe uid env).2.counter = st.counter + 1 := by
  cases hb : createAttempt bd ph recipe uid env (st.counter + 1)
      (joinPath bd ("vm-" ++ env.uuid)) with
  | ok term =>
    have hok : (create_terminal bd ph st recipe uid env).1 =
        CreateRes.ok ("terminal_" ++ Nat.repr st.counter) term.name := by
      simp [create_terminal, hb]
    rw [hok] at h
    exact absurd h (by simp)
  | error e' =>
    have h2 : (create_terminal bd ph st recipe uid env).2 =
        MState.mk st.registry (st.counter + 1)
          ((addDir st.dirs (joinPath bd ("vm-" ++ env.uuid))).filter
            (fun d => d ≠ joinPath bd ("vm-" ++ env.uuid))) := by
      simp [create_terminal, hb]
    rw [h2]
    refine ⟨rfl, ?_, ?_, rfl⟩
    · rw [addDir_filter]
      exact not_mem_filter_ne _ _
    · exact addDir_filter _ _

/-- A create attempt that fails at the probe because the hypervisor binary
is missing. -/
def failEnv : CreateEnv :=
  { uuid := "u9", now := 0, pid := 0, pty := none,
    testOutcome := TestOutcome.fileNotFound, launchErr := none,
    pollAfterStart := none, bootStdout := "", bootStderr := "",
    r1 := 0, r2 := 0, r3 := 0 }

/-- Witness for C3: a concrete failed create returns the missing-binary
error, leaves the one-session registry untouched, and holds no work
directory for the aborted session. -/
theorem create_failure_removes_workdir_witness :
    (create_terminal "/b" (fun _ => (0 : Int)) aliceState none (some "alice")
        failEnv).1 = CreateRes.err "Cloud Hypervisor binary not found" ∧
    (create_terminal "/b" (fun _ => (0 : Int)) aliceState none (some "alice")
        failEnv).2.registry = aliceState.registry ∧
    joinPath "/b" ("vm-" ++ failEnv.uuid) ∉
      (create_terminal "/b" (fun _ => (0 : Int)) aliceState none (some "alice")
        failEnv).2.dirs :=
  ⟨by decide,
   (create_failure_removes_workdir "/b" (fun _ => (0 : Int)) aliceState none
      (some "alice") failEnv "Cloud Hypervisor binary not found" (by decide)).1,
   (create_failure_removes_workdir "/b" (fun _ => (0 : Int)) aliceState none
      (some "alice") failEnv "Cloud Hypervisor binary not found" (by decide)).2.1⟩

/-! ## C5: owner scoping of `list_terminals` -/

/-- Counterexample to C5 as stated: the empty string is an owner identity
(Python accepts it as a `user_id`), yet `list_terminals` with owner `""`
falls into the global branch of the truthiness check `if user_id:` and
returns the session stored under `alice` — a session created under a
different owner — even though nothing is stored under `""`. -/
theorem list_terminals_empty_owner_counterexample :
    list_terminals aliceState (some "") =
      [{ id := "terminal_0", name := "T1", created := 3,
         status := "running" }] ∧
    regLookup aliceState.registry (some "") = none := by
  decide

/-- C5 (amended): for every non-empty owner identity `u`,
`list_terminals` returns exactly the sessions stored under `u` (every
returned row comes from `u`'s own map, so never another owner's session);
with no owner — or the empty-string owner, which the code's truthiness
check treats as absent — it returns the union of all owners' sessions in
registry order; each row's status is `running` when the process has not
exited and `stopped` otherwise. -/
theorem list_terminals_owner_scoping (st : MState) (u : String)
    (hu : u ≠ "") :
    (list_terminals st (some u) =
      (match regLookup st.registry (some u) with
       | some um => um.map (fun p => listEntryOf p.1 p.2)
       | none => [])) ∧
    (∀ e ∈ list_terminals st (some u), ∃ um t,
      regLookup st.registry (some u) = some um ∧ (e.id, t) ∈ um ∧
      e = listEntryOf e.id t) ∧
    (list_terminals st none =
      (st.registry.map (fun p => p.2.map (fun q => listEntryOf q.1 q.2))).flatten) ∧
    (∀ e ∈ list_terminals st none, ∃ u' um t,
      (u', um) ∈ st.registry ∧ (e.id, t) ∈ um ∧ e = listEntryOf e.id t) ∧
    (∀ (tid : String) (t : Terminal),
      (listEntryOf tid t).status =
        if t.poll.isNone then "running" else "stopped") := by
  have htr : uidTruthy (some u) = true := by simp [uidTruthy, hu]
  refine ⟨?_, ?_, ?_, ?_, ?_⟩
  · simp [list_terminals, htr]
  · intro e he
    rw [list_terminals, if_pos htr] at he
    cases hr : regLookup st.registry (some u) with
    | none => rw [hr] at he; simp at he
    | some um =>
      rw [hr] at he
      rcases List.mem_map.mp he with ⟨p, hp, hpe⟩
      refine ⟨um, p.2, rfl, ?_, ?_⟩
      · have hid : e.id = p.1 := by rw [← hpe]; rfl
        rw [hid]
        exact hp
      · rw [← hpe]
        rfl
  · simp [list_terminals, uidTruthy]
  · intro e he
    rw [list_terminals] at he
    simp only [uidTruthy, if_false, Bool.false_eq_true] at he
    rcases List.mem_flatten.mp he with ⟨l, hl, hel⟩
    rcases List.mem_map.mp hl with ⟨p, hp, hpl⟩
    rw [← hpl] at hel
    rcases List.mem_map.mp hel with ⟨q, hq, hqe⟩
    refine ⟨p.1, p.2, q.2, by simpa using hp, ?_, ?_⟩
    · have hid : e.id = q.1 := by rw [← hqe]; rfl
      rw [hid]
      exact hq
    · rw [← hqe]
      rfl
  · intro tid t
    rfl

/-- Witness for C5 (amended): the scoped listing for the non-empty owner
`alice` is exactly her own map's rows. -/
theorem list_terminals_owner_scoping_witness :
    list_terminals aliceState (some "alice") =
      (match regLookup aliceState.registry (some "alice") with
       | some um => um.map (fun p => listEntryOf p.1 p.2)
       | none => []) :=
  (list_terminals_owner_scoping aliceState "alice" (by decide)).1

/-! ## C6: boot-mode selection and resource defaults -/

/-- C6: for every recipe, the built VM configuration boots the firmware
image with no kernel command line when `use_firmware` is true, and
otherwise (including when the field is absent, so that `getD false` is
false) boots the kernel image with the fixed command line
`console=ttyS0 root=/dev/vda1 rw`; the CPU count defaults to 2 and the
memory size to `512M` when absent from the recipe. -/
theorem prepare_vm_config_boot_mode_and_defaults (bd : String) (r : Recipe)
    (wd su : String) :
    (r.use_firmware.getD false = true →
      (prepare_vm_config bd r wd su).kernel = joinPath bd "bin/hypervisor-fw" ∧
      (prepare_vm_config bd r wd su).cmdline = none) ∧
    (r.use_firmware.getD false = false →
      (prepare_vm_config bd r wd su).kernel = joinPath bd "bin/vmlinux-ch" ∧
      (prepare_vm_config bd r wd su).cmdline =
        some "console=ttyS0 root=/dev/vda1 rw") ∧
    (r.cpus = none → (prepare_vm_config bd r wd su).cpus = 2) ∧
    (r.memory = none → (prepare_vm_config bd r wd su).memory = "512M") := by
  refine ⟨fun h => ?_, fun h => ?_, fun h => ?_, fun h => ?_⟩ <;>
    simp [prepare_vm_config, h]

/-- Witness for C6 at concrete recipes: the default recipe boots the
kernel with the fixed command line and default sizing, and a
firmware-requesting recipe boots the firmware with no command line. -/
theorem prepare_vm_config_boot_mode_and_defaults_witness :
    ((prepare_vm_config "/b" {} "w" "s").kernel = joinPath "/b" "bin/vmlinux-ch" ∧
      (prepare_vm_config "/b" {} "w" "s").cmdline =
        some "console=ttyS0 root=/dev/vda1 rw") ∧
    (prepare_vm_config "/b" {} "w" "s").cpus = 2 ∧
    (prepare_vm_config "/b" {} "w" "s").memory = "512M" ∧
    ((prepare_vm_config "/b" { use_firmware := some true } "w" "s").kernel =
        joinPath "/b" "bin/hypervisor-fw" ∧
      (prepare_vm_config "/b" { use_firmware := some true } "w" "s").cmdline =
        none) :=
  ⟨(prepare_vm_config_boot_mode_and_defaults "/b" {} "w" "s").2.1 (by decide),
   (prepare_vm_config_boot_mode_and_defaults "/b" {} "w" "s").2.2.1 rfl,
   (prepare_vm_config_boot_mode_and_defaults "/b" {} "w" "s").2.2.2 rfl,
   (prepare_vm_config_boot_mode_and_defaults "/b"
      { use_firmware := some true } "w" "s").1 (by decide)⟩

/-! ## C4: operations on a session whose process already exited -/

/-- C4: for every registered session whose VM process has already exited,
`read_from_terminal` and `write_to_terminal` both return the
`VM process has stopped` error; the read result and the state are
independent of the console oracle (no descriptor is touched and the
buffer is unchanged), so in particular the first read after the exit
reports the error rather than data or an empty success. -/
theorem stopped_process_read_write (st : MState) (tid : String)
    (uid : Option String) (t : Terminal) (code : Int)
    (hfind : find_terminal st.registry tid uid = some t)
    (hpoll : t.poll = some code) :
    (∀ env : ReadEnv,
      read_from_terminal st tid uid env =
        (ReadRes.err "VM process has stopped", st)) ∧
    (∀ (cmd : String) (env : WriteEnv),
      write_to_terminal st tid cmd uid env =
        WriteRes.err "VM process has stopped") := by
  constructor
  · intro env
    simp [read_from_terminal, hfind, hpoll]
  · intro cmd env
    simp [write_to_terminal, hfind, hpoll]

/-- Witness for C4: on a concrete stopped session, a read with data ready
at the descriptor still reports the stopped process and leaves the state
alone, and a write fails the same way. -/
theorem stopped_process_read_write_witness :
    read_from_terminal stoppedState "terminal_0" none
        { selectReady := true, readData := some "late" } =
      (ReadRes.err "VM process has stopped", stoppedState) ∧
    write_to_terminal stoppedState "terminal_0" "ls\n" none
        { writeErr := none } =
      WriteRes.err "VM process has stopped" :=
  ⟨(stopped_process_read_write stoppedState "terminal_0" none stoppedTerm 0
      (by decide) (by decide)).1 _,
   (stopped_process_read_write stoppedState "terminal_0" none stoppedTerm 0
      (by decide) (by decide)).2 _ _⟩

/-! ## C10: read-only projections keep succeeding on a stopped session -/

/-- C10: for every session still in the registry whose process has exited
but which has not been closed, `get_terminal_status` succeeds with
`running = false` and the stored pid, and `get_screen_content` succeeds
with the accumulated buffer content, even though `read` and `write` on the
same session return the stopped-process error. -/
theorem stopped_session_projections (st : MState) (tid : String)
    (uid : Option String) (t : Terminal) (code : Int)
    (hfind : find_terminal st.registry tid uid = some t)
    (hpoll : t.poll = some code) :
    get_terminal_status st tid uid =
      StatusRes.ok
        { id := tid, name := t.name, created := t.created_at,
          running := false, pid := t.pid, recipe := t.recipe,
          work_dir := t.work_dir } ∧
    get_screen_content st tid uid =
      ScreenRes.ok (String.join t.screen_buffer) ∧
    (∀ env : ReadEnv,
      read_from_terminal st tid uid env =
        (ReadRes.err "VM process has stopped", st)) ∧
    (∀ (cmd : String) (env : WriteEnv),
      write_to_terminal st tid cmd uid env =
        WriteRes.err "VM process has stopped") := by
  refine ⟨?_, ?_, fun env => ?_, fun cmd env => ?_⟩
  · simp [get_terminal_status, hfind, hpoll]
  · simp [get_screen_content, hfind]
  · simp [read_from_terminal, hfind, hpoll]
  · simp [write_to_terminal, hfind, hpoll]

/-- Witness for C10 on the concrete stopped session: status reports
`running = false` with the stored pid and the screen content is the
buffered output. -/
theorem stopped_session_projections_witness :
    get_terminal_status stoppedState "terminal_0" (some "alice") =
      StatusRes.ok
        { id := "terminal_0", name := "T1", created := 3, running := false,
          pid := 7, recipe := {}, work_dir := "/b/vm-u1" } ∧
    get_screen_content stoppedState "terminal_0" (some "alice") =
      ScreenRes.ok (String.join ["boot\n"]) :=
  ⟨(stopped_session_projections stoppedState "terminal_0" (some "alice")
      stoppedTerm 0 (by decide) (by decide)).1,
   (stopped_session_projections stoppedState "terminal_0" (some "alice")
      stoppedTerm 0 (by decide) (by decide)).2.1⟩

/-! ## Decimal printing is injective (for the `terminal_{n}` ids) -/

/-- The value of a decimal digit character, inverse to `Nat.digitChar` on
`0..9`. -/
def decCharVal (c : Char) : Nat :=
  if c = '0' then 0 else if c = '1' then 1 else if c = '2' then 2
  else if c = '3' then 3 else if c = '4' then 4 else if c = '5' then 5
  else if c = '6' then 6 else if c = '7' then 7 else if c = '8' then 8
  else 9

/-- The numeric value of a decimal digit string, most significant first. -/
def decVal (cs : List Char) : Nat :=
  cs.foldl (fun a c => a * 10 + decCharVal c) 0

/-- Lemma: `decCharVal` inverts `Nat.digitChar` on single digits. -/
theorem decCharVal_digitChar (m : Nat) (h : m < 10) :
    decCharVal (Nat.digitChar m) = m := by
  interval_cases m <;> rfl

/-- The digit accumulator only prepends: the worked-on tail rides along. -/
theorem toDigitsCore_append (b : Nat) :
    ∀ (fuel n : Nat) (ds : List Char),
      Nat.toDigitsCore b fuel n ds = Nat.toDigitsCore b fuel n [] ++ ds := by
  intro fuel
  induction fuel with
  | zero => intro n ds; simp [Nat.toDigitsCore]
  | succ f ih =>
    intro n ds
    simp only [Nat.toDigitsCore]
    by_cases h : n / b = 0
    · simp [h]
    · simp only [if_neg h]
      rw [ih (n / b) (Nat.digitChar (n % b) :: ds),
        ih (n / b) [Nat.digitChar (n % b)]]
      simp

/-- With enough fuel, `decVal` recovers the printed number. -/
theorem decVal_toDigitsCore :
    ∀ (fuel n : Nat), n < fuel →
      decVal (Nat.toDigitsCore 10 fuel n []) = n := by
  intro fuel
  induction fuel with
  | zero => intro n h; omega
  | succ f ih =>
    intro n h
    simp only [Nat.toDigitsCore]
    by_cases h0 : n / 10 = 0
    · simp only [if_pos h0]
      have hlt : n < 10 := (Nat.div_eq_zero_iff (by omega)).mp h0
      have hmod : n % 10 = n := Nat.mod_eq_of_lt hlt
      simp [decVal, hmod, decCharVal_digitChar n hlt]
    · simp only [if_neg h0]
      rw [toDigitsCore_append]
      have hpos : 0 < n := by
        by_contra hz
        have hn0 : n = 0 := by omega
        rw [hn0] at h0
        simp at h0
      have hdiv : n / 10 < n := Nat.div_lt_self hpos (by omega)
      have hrec := ih (n / 10) (by omega)
      simp only [decVal, List.foldl_append, List.foldl_cons, List.foldl_nil]
      simp only [decVal] at hrec
      rw [hrec]
      rw [decCharVal_digitChar (n % 10) (Nat.mod_lt n (by omega))]
      omega

/-- Decimal printing of naturals is injective. -/
theorem repr_nat_inj (a b : Nat) (h : Nat.repr a = Nat.repr b) : a = b := by
  have hdata : Nat.toDigits 10 a = Nat.toDigits 10 b := by
    have := congrArg String.data h
    simpa [Nat.repr, List.asString] using this
  have ha := decVal_toDigitsCore (a + 1) a (Nat.lt_succ_self a)
  have hb := decVal_toDigitsCore (b + 1) b (Nat.lt_succ_self b)
  unfold Nat.toDigits at hdata
  rw [hdata] at ha
  exact ha.symm.trans hb

/-- The printed session ids `terminal_{n}` are injective in the counter. -/
theorem terminal_id_inj (a b : Nat)
    (h : "terminal_" ++ Nat.repr a = "terminal_" ++ Nat.repr b) : a = b := by
  apply repr_nat_inj
  have hd := congrArg String.data h
  simp only [String.data_append] at hd
  exact String.ext (List.append_cancel_left hd)

/-! ## C8: monotone counter, unique session ids -/

/-- Every create bumps the counter by one, and a successful create returns
the id minted from the pre-call counter. -/
theorem create_result_id (bd : String) (ph : String → Int) (st : MState)
    (recipe : Option Recipe) (uid : Option String) (env : CreateEnv) :
    (create_terminal bd ph st recipe uid env).2.counter = st.counter + 1 ∧
    (∀ tid nm, (create_terminal bd ph st recipe uid env).1 =
      CreateRes.ok tid nm → tid = "terminal_" ++ Nat.repr st.counter) := by
  cases hb : createAttempt bd ph recipe uid env (st.counter + 1)
      (joinPath bd ("vm-" ++ env.uuid)) with
  | ok term =>
    constructor
    · simp [create_terminal, hb]
    · intro tid nm h
      have hres : (create_terminal bd ph st recipe uid env).1 =
          CreateRes.ok ("terminal_" ++ Nat.repr st.counter) term.name := by
        simp [create_terminal, hb]
      rw [hres] at h
      cases h
      rfl
  | error e =>
    constructor
    · simp [create_terminal, hb]
    · intro tid nm h
      have hres : (create_terminal bd ph st recipe uid env).1 =
          CreateRes.err e := by
        simp [create_terminal, hb]
      rw [hres] at h
      exact absurd h (by simp)

/-- In a straight-line run of creates, the k-th successful result carries
the id minted from the starting counter plus k. -/
theorem runCreates_get (bd : String) (ph : String → Int) :
    ∀ (steps : List (Option Recipe × Option String × CreateEnv))
      (st : MState) (k : Nat) (tid nm : String),
      (runCreates bd ph st steps).get? k = some (CreateRes.ok tid nm) →
      tid = "terminal_" ++ Nat.repr (st.counter + k) := by
  intro steps
  induction steps with
  | nil => intro st k tid nm h; simp [runCreates] at h
  | cons hd tl ih =>
    intro st k tid nm h
    obtain ⟨r, u, e⟩ := hd
    cases k with
    | zero =>
      simp only [runCreates, List.get?_cons_zero, Option.some.injEq] at h
      have := (create_result_id bd ph st r u e).2 tid nm h
      simpa using this
    | succ k' =>
      simp only [runCreates, List.get?_cons_succ] at h
      have hk := ih ((create_terminal bd ph st r u e).2) k' tid nm h
      rw [(create_result_id bd ph st r u e).1] at hk
      rw [hk]
      congr 2
      omega

/-- The recipe of the spec's id scenario. -/
def scenarioRecipe : Recipe :=
  { cpus := some 1, memory := some "256M", use_firmware := some false }

/-- A create attempt in which every OS step succeeds. -/
def okEnv : CreateEnv :=
  { uuid := "u0", now := 0, pid := 11, pty := some ⟨5, 6, "/dev/pts/2"⟩,
    testOutcome := TestOutcome.timeoutExpired, launchErr := none,
    pollAfterStart := none, bootStdout := "", bootStderr := "",
    r1 := 1, r2 := 2, r3 := 3 }

/-- C8: session ids are unique for the lifetime of one manager: any two
distinct positions of a straight-line run of creates that both succeed
return different id strings (ids are minted from the strictly increasing
counter, which every create — successful or not — bumps by one, and which
close and read never touch); in a fresh manager the first two successful
creates (the spec's scenario recipe) return `terminal_0` then
`terminal_1`. -/
theorem session_ids_unique (bd : String) (ph : String → Int) (st : MState)
    (steps : List (Option Recipe × Option String × CreateEnv))
    (i j : Nat) (ti ni tj nj : String) (hij : i ≠ j)
    (hi : (runCreates bd ph st steps).get? i = some (CreateRes.ok ti ni))
    (hj : (runCreates bd ph st steps).get? j = some (CreateRes.ok tj nj)) :
    ti ≠ tj ∧
    (∀ recipe uid env,
      (create_terminal bd ph st recipe uid env).2.counter = st.counter + 1) ∧
    (∀ tid uid env, (close_terminal st tid uid env).2.counter = st.counter) ∧
    (∀ tid uid env,
      (read_from_terminal st tid uid env).2.counter = st.counter) ∧
    runCreates "/b" (fun _ => (0 : Int)) (MState.mk [] 0 [])
        [(some scenarioRecipe, some "alice", okEnv),
         (some scenarioRecipe, some "alice", okEnv)] =
      [CreateRes.ok "terminal_0" "CloudHV 1",
       CreateRes.ok "terminal_1" "CloudHV 2"] := by
  refine ⟨?_, ?_, ?_, ?_, by decide⟩
  · intro he
    have h1 := runCreates_get bd ph steps st i ti ni hi
    have h2 := runCreates_get bd ph steps st j tj nj hj
    rw [he] at h1
    rw [h1] at h2
    have := terminal_id_inj _ _ h2
    omega
  · intro recipe uid env
    exact (create_result_id bd ph st recipe uid env).1
  · intro tid uid env
    cases hfind : find_terminal st.registry tid uid with
    | none => simp [close_terminal, hfind]
    | some t => simp [close_terminal, hfind]
  · intro tid uid env
    rcases read_state_cases st tid uid env with heq | ⟨t, s, _, heq⟩ <;>
      rw [heq]

/-- Witness for C8: the two successful creates of the concrete fresh-run
scenario carry distinct ids. -/
theorem session_ids_unique_witness : "terminal_0" ≠ "terminal_1" :=
  (session_ids_unique "/b" (fun _ => (0 : Int)) (MState.mk [] 0 [])
    [(some scenarioRecipe, some "alice", okEnv),
     (some scenarioRecipe, some "alice", okEnv)]
    0 1 "terminal_0" "CloudHV 1" "terminal_1" "CloudHV 2"
    (by decide) (by decide) (by decide)).1

/-! ## C9: the build is not deterministic in the claimed inputs — the MAC
is freshly random per build -/

/-- The VM config of a default recipe for session uuid `u`, as
`create_terminal` assembles it before building the command. -/
def sampleCfg : VmConfig :=
  { prepare_vm_config "/b" {} "/b/vm-u" "u" with session_uuid := "u" }

/-- Counterexample to C9 as stated: two builds from the same recipe, work
directory, session UUID, PTY allocation, and in-process string hash — but
at different points of the RNG stream (`randint` draws `0,0,0` versus
`1,2,3`) — produce different hypervisor argument vectors: the MAC inside
the `--net` argument differs. -/
theorem build_command_rng_counterexample :
    (build_cloud_hypervisor_command "/b" sampleCfg none 0 0 0
        (fun _ => (0 : Int))).1 ≠
    (build_cloud_hypervisor_command "/b" sampleCfg none 1 2 3
        (fun _ => (0 : Int))).1 := by
  decide

/-- C9 (amended): given the same recipe, work directory, session UUID, PTY
allocation, and per-process string hash, the built argument vector is the
draw-independent `cmdCore` followed by one `--net` argument whose only
draw-dependent component is the MAC address; in particular the per-session
IP (hash of the session UUID into `172.20.0.100..149`) is identical across
the two builds, and with identical RNG draws the vectors are identical. -/
theorem build_command_deterministic_except_mac (bd : String) (r : Recipe)
    (wd su : String) (pty : Option PtyAlloc) (ph : String → Int)
    (a1 a2 a3 b1 b2 b3 : Nat) :
    (build_cloud_hypervisor_command bd
        { prepare_vm_config bd r wd su with session_uuid := su }
        pty a1 a2 a3 ph).1 =
      cmdCore bd { prepare_vm_config bd r wd su with session_uuid := su } pty ++
        ["--net", "tap=ch-tap0,mac=" ++ generate_mac_address a1 a2 a3 ++
          ",ip=" ++ vmIpOf ph su ++ ",mask=255.255.255.0"] ∧
    (build_cloud_hypervisor_command bd
        { prepare_vm_config bd r wd su with session_uuid := su }
        pty b1 b2 b3 ph).1 =
      cmdCore bd { prepare_vm_config bd r wd su with session_uuid := su } pty ++
        ["--net", "tap=ch-tap0,mac=" ++ generate_mac_address b1 b2 b3 ++
          ",ip=" ++ vmIpOf ph su ++ ",mask=255.255.255.0"] :=
  ⟨rfl, rfl⟩

end CloudHV

